import Mathlib

/-!
Verification of the Tetra Master interaction-table generator
(`drivers/ai/generate-interactions.py`).

The generator holds a hand-coded adjacency table `NEIGHBOURS` for the
16 cells of a 4x4 grid and, for every arrow bitmask in [0,255] and every
cell in [0,15], folds over the adjacency entries of the cell accumulating an
interaction bitmask with XOR.  The definitions below transcribe the
script; `dirBetween` and `computeInteractionOr` are comparison
definitions modelled from the words of the specification (grid geometry and
the OR-accumulation variant, respectively).
-/

namespace GenInteractions

/-- Arrow bit pattern for the up direction, from the generator script. -/
def U : Nat := 0b10000000

/-- Arrow bit pattern for the up-right direction. -/
def UR : Nat := 0b01000000

/-- Arrow bit pattern for the right direction. -/
def R : Nat := 0b00100000

/-- Arrow bit pattern for the down-right direction. -/
def DR : Nat := 0b00010000

/-- Arrow bit pattern for the down direction. -/
def D : Nat := 0b00001000

/-- Arrow bit pattern for the down-left direction. -/
def DL : Nat := 0b00000100

/-- Arrow bit pattern for the left direction. -/
def L : Nat := 0b00000010

/-- Arrow bit pattern for the up-left direction. -/
def UL : Nat := 0b00000001

/-- The adjacency table of the generator script, transcribed verbatim:
entry `cell` lists pairs `(neighbourCell, arrowBit)`. -/
def NEIGHBOURS : List (List (Nat × Nat)) := [
  [(0x1, R), (0x4, D), (0x5, DR)],
  [(0x0, L), (0x2, R), (0x4, DL), (0x5, D), (0x6, DR)],
  [(0x1, L), (0x3, R), (0x5, DL), (0x6, D), (0x7, DR)],
  [(0x2, L), (0x6, DL), (0x7, D)],
  [(0x0, U), (0x1, UR), (0x5, R), (0x8, D), (0x9, DR)],
  [(0x0, UL), (0x1, U), (0x2, UR), (0x4, L), (0x6, R), (0x8, DL), (0x9, D), (0xA, DR)],
  [(0x1, UL), (0x2, U), (0x3, UR), (0x5, L), (0x7, R), (0x9, DL), (0xA, D), (0xB, DR)],
  [(0x3, U), (0xB, D), (0xA, DL), (0x6, L), (0x2, UL)],
  [(0x4, U), (0x5, UR), (0x9, R), (0xD, DR), (0xC, D)],
  [(0x5, U), (0x6, UR), (0xA, R), (0xE, DR), (0xD, D), (0xC, DL), (0x8, L), (0x4, UL)],
  [(0x6, U), (0x7, UR), (0xB, R), (0xF, DR), (0xE, D), (0xD, DL), (0x9, L), (0x5, UL)],
  [(0x6, UL), (0x7, U), (0xA, L), (0xE, DL), (0xF, D)],
  [(0x8, U), (0x9, UR), (0xD, R)],
  [(0x8, UL), (0x9, U), (0xA, UR), (0xC, L), (0xE, R)],
  [(0x9, UL), (0xA, U), (0xB, UR), (0xD, L), (0xF, R)],
  [(0xA, UL), (0xB, U), (0xE, L)]]

/-- The inner loop of the generator: starting from 0, for each
`(neighbourCell, arrowBit)` entry of the adjacency list of the cell, XOR in
bit `neighbourCell` whenever `arrows` has `arrowBit` set. -/
def computeInteraction (arrows cell : Nat) : Nat :=
  (NEIGHBOURS.getD cell []).foldl
    (fun interactions p =>
      if arrows &&& p.2 ≠ 0 then interactions ^^^ (1 <<< p.1) else interactions) 0

/-- One step of the OR-accumulation variant of the inner loop. -/
def orStep (arrows acc : Nat) (p : Nat × Nat) : Nat :=
  if arrows &&& p.2 ≠ 0 then acc ||| (1 <<< p.1) else acc

/-- The inner loop with the XOR accumulation replaced by OR; modelled
from the wording of the spec (XOR and OR are observationally equivalent here). -/
def computeInteractionOr (arrows cell : Nat) : Nat :=
  (NEIGHBOURS.getD cell []).foldl (orStep arrows) 0

/-- Direction, as an arrow bit, from cell `a` to cell `b` on the
row-major 4x4 grid with row 0 at the top (cell = row*4 + col), when `b`
is exactly one king step from `a`; modelled from the grid geometry of the spec. -/
def dirBetween (a b : Nat) : Option Nat :=
  let dr : Int := (b : Int) / 4 - (a : Int) / 4
  let dc : Int := (b : Int) % 4 - (a : Int) % 4
  if dr = -1 ∧ dc = 0 then some U
  else if dr = -1 ∧ dc = 1 then some UR
  else if dr = 0 ∧ dc = 1 then some R
  else if dr = 1 ∧ dc = 1 then some DR
  else if dr = 1 ∧ dc = 0 then some D
  else if dr = 1 ∧ dc = -1 then some DL
  else if dr = 0 ∧ dc = -1 then some L
  else if dr = -1 ∧ dc = -1 then some UL
  else none

/-- The opposite compass direction of an arrow bit. -/
def opposite (d : Nat) : Nat :=
  if d = U then D
  else if d = UR then DL
  else if d = R then L
  else if d = DR then UL
  else if d = D then U
  else if d = DL then UR
  else if d = L then R
  else if d = UL then DR
  else 0

/-- The emitted table: one row per arrow mask 0..255, one column per
cell 0..15, transcribing the two nested output loops of the generator. -/
def INTERACTIONS : List (List Nat) :=
  (List.range 256).map (fun arrows => (List.range 16).map (fun cell => computeInteraction arrows cell))


set_option maxRecDepth 40000

def neighbourMask (cell : Nat) : Nat :=
  (NEIGHBOURS.getD cell []).foldl (fun m p => m ||| (1 <<< p.1)) 0

lemma lor_eq_zero_iff (x y : Nat) : x ||| y = 0 ↔ x = 0 ∧ y = 0 := by
  constructor
  · intro h
    have hb : ∀ i, x.testBit i = false ∧ y.testBit i = false := by
      intro i
      have hxy : (x ||| y).testBit i = false := by rw [h]; exact Nat.zero_testBit i
      simpa [Nat.testBit_or] using hxy
    exact ⟨Nat.eq_of_testBit_eq fun i => by simp [(hb i).1],
           Nat.eq_of_testBit_eq fun i => by simp [(hb i).2]⟩
  · rintro ⟨rfl, rfl⟩
    rfl

lemma orStep_hom (a b acc1 acc2 : Nat) (p : Nat × Nat) :
    orStep (a ||| b) (acc1 ||| acc2) p = orStep a acc1 p ||| orStep b acc2 p := by
  unfold orStep
  rw [Nat.and_distrib_right]
  by_cases h1 : a &&& p.2 = 0 <;> by_cases h2 : b &&& p.2 = 0 <;>
    simp [h1, h2, lor_eq_zero_iff] <;>
    exact Nat.eq_of_testBit_eq fun i => by
      simp only [Nat.testBit_or]
      cases hx : acc1.testBit i <;> cases hy : acc2.testBit i <;>
        cases hz : (1 <<< p.1).testBit i <;> simp [hx, hy, hz]

lemma foldl_orStep_hom (a b : Nat) :
    ∀ (l : List (Nat × Nat)) (acc1 acc2 : Nat),
      l.foldl (orStep (a ||| b)) (acc1 ||| acc2) =
        l.foldl (orStep a) acc1 ||| l.foldl (orStep b) acc2 := by
  intro l
  induction l with
  | nil => intro acc1 acc2; rfl
  | cons p t ih =>
      intro acc1 acc2
      simp only [List.foldl_cons]
      rw [orStep_hom]
      exact ih _ _

lemma computeInteractionOr_hom (a b cell : Nat) :
    computeInteractionOr (a ||| b) cell =
      computeInteractionOr a cell ||| computeInteractionOr b cell :=
  foldl_orStep_hom a b (NEIGHBOURS.getD cell []) 0 0

lemma xor_or_equiv : ∀ a < 256, ∀ c < 16,
    computeInteraction a c = computeInteractionOr a c := by decide

lemma interaction_subset_mask : ∀ a < 256, ∀ c < 16,
    computeInteraction a c ||| neighbourMask c = neighbourMask c := by decide

lemma mask_testBit_mem : ∀ c < 16, ∀ i < 16,
    (neighbourMask c).testBit i = true →
      i ∈ List.map Prod.fst (NEIGHBOURS.getD c []) := by decide

lemma mask_lt : ∀ c < 16, neighbourMask c < 65536 := by decide

lemma INTERACTIONS_getD (a : Nat) (ha : a < 256) :
    INTERACTIONS.getD a [] = (List.range 16).map (fun cell => computeInteraction a cell) := by
  unfold INTERACTIONS
  rw [List.getD_eq_getElem?_getD, List.getElem?_map, List.getElem?_range ha]
  rfl

lemma row_getD (a c : Nat) (hc : c < 16) :
    ((List.range 16).map (fun cell => computeInteraction a cell)).getD c 0 =
      computeInteraction a c := by
  rw [List.getD_eq_getElem?_getD, List.getElem?_map, List.getElem?_range hc]
  rfl



/-- C1 (counterexample): the claim that each direction tag in NEIGHBOURS is the
direction from the neighbour back toward the subject cell fails at cell 0 and
entry (1, R): the direction from cell 1 toward cell 0 is L, not R. -/
theorem c1_back_direction_counterexample :
    (0x1, R) ∈ NEIGHBOURS.getD 0 [] ∧ dirBetween 0x1 0x0 ≠ some R := by decide

/-- C1 (amended): for every cell and every entry (Y, D) in the adjacency list
of that cell, D is the direction from the subject cell toward the neighbour Y
(the forward direction, not the back-reference direction). -/
theorem c1_forward_direction : ∀ cell < 16, ∀ p ∈ NEIGHBOURS.getD cell [],
    dirBetween cell p.1 = some p.2 := by decide

theorem c1_forward_direction_witness : dirBetween 0 0x1 = some R :=
  c1_forward_direction 0 (by decide) (0x1, R) (by decide)

/-- C2: for every arrow mask below 256 and every cell below 16, the XOR
accumulation of the generator computes the same interaction mask as the OR
accumulation variant. -/
theorem c2_xor_eq_or_accumulation : ∀ arrows < 256, ∀ cell < 16,
    computeInteraction arrows cell = computeInteractionOr arrows cell :=
  xor_or_equiv

theorem c2_xor_eq_or_accumulation_witness :
    computeInteraction 0xB7 6 = computeInteractionOr 0xB7 6 :=
  c2_xor_eq_or_accumulation 0xB7 (by decide) 6 (by decide)

/-- C3: every bit set in an interaction mask computed for an arrow mask below
256 and a cell below 16 names a cell that appears in the adjacency list of the
subject cell; no bit is ever set for a non-adjacent cell. -/
theorem c3_no_out_of_bounds_interaction (arrows cell i : Nat) (ha : arrows < 256)
    (hcell : cell < 16) (h : (computeInteraction arrows cell).testBit i = true) :
    i ∈ List.map Prod.fst (NEIGHBOURS.getD cell []) := by
  have hmask : (neighbourMask cell).testBit i = true := by
    rw [← interaction_subset_mask arrows ha cell hcell, Nat.testBit_or, h]
    simp
  by_cases hi : i < 16
  · exact mask_testBit_mem cell hcell i hi hmask
  · exfalso
    have hfalse : (neighbourMask cell).testBit i = false :=
      Nat.testBit_lt_two_pow (lt_of_lt_of_le (mask_lt cell hcell)
        (le_trans (by norm_num : (65536 : Nat) ≤ 2 ^ 16)
          (Nat.pow_le_pow_right (by norm_num) (Nat.le_of_not_lt hi))))
    rw [hmask] at hfalse
    exact Bool.noConfusion hfalse

theorem c3_no_out_of_bounds_interaction_witness :
    (0x1 : Nat) ∈ List.map Prod.fst (NEIGHBOURS.getD 0 []) :=
  c3_no_out_of_bounds_interaction 0xFF 0 0x1 (by decide) (by decide) (by decide)

/-- C4: the adjacency relation is symmetric: whenever (Y, D) appears in the
list of cell X, the pair (X, opposite D) appears in the list of cell Y. -/
theorem c4_adjacency_symmetric : ∀ cell < 16, ∀ p ∈ NEIGHBOURS.getD cell [],
    (cell, opposite p.2) ∈ NEIGHBOURS.getD p.1 [] := by decide

theorem c4_adjacency_symmetric_witness : (0, opposite R) ∈ NEIGHBOURS.getD 0x1 [] :=
  c4_adjacency_symmetric 0 (by decide) (0x1, R) (by decide)

/-- C5: each corner cell lists exactly 3 neighbours, each non-corner edge cell
exactly 5, and each interior cell exactly 8. -/
theorem c5_neighbour_counts :
    ((NEIGHBOURS.getD 0 []).length = 3 ∧ (NEIGHBOURS.getD 3 []).length = 3 ∧
      (NEIGHBOURS.getD 12 []).length = 3 ∧ (NEIGHBOURS.getD 15 []).length = 3) ∧
    ((NEIGHBOURS.getD 1 []).length = 5 ∧ (NEIGHBOURS.getD 2 []).length = 5 ∧
      (NEIGHBOURS.getD 4 []).length = 5 ∧ (NEIGHBOURS.getD 7 []).length = 5 ∧
      (NEIGHBOURS.getD 8 []).length = 5 ∧ (NEIGHBOURS.getD 11 []).length = 5 ∧
      (NEIGHBOURS.getD 13 []).length = 5 ∧ (NEIGHBOURS.getD 14 []).length = 5) ∧
    ((NEIGHBOURS.getD 5 []).length = 8 ∧ (NEIGHBOURS.getD 6 []).length = 8 ∧
      (NEIGHBOURS.getD 9 []).length = 8 ∧ (NEIGHBOURS.getD 10 []).length = 8) := by
  decide

/-- C6: with all 8 arrows set, the interaction mask at interior cell 5 has
exactly bits 0, 1, 2, 4, 6, 8, 9, 10 set, and at corner cell 0 exactly
bits 1, 4, 5. -/
theorem c6_full_arrow_results :
    computeInteraction 0xFF 5 = 2 ^ 0 + 2 ^ 1 + 2 ^ 2 + 2 ^ 4 + 2 ^ 6 + 2 ^ 8 + 2 ^ 9 + 2 ^ 10 ∧
    computeInteraction 0xFF 0 = 2 ^ 1 + 2 ^ 4 + 2 ^ 5 := by decide

/-- C7: with only the west (L) arrow bit set, the interaction mask at cell 1
has exactly bit 0 set. -/
theorem c7_west_arrow_cell1 : computeInteraction L 1 = 2 ^ 0 := by decide

/-- C8: the emitted table has 256 rows of 16 columns, rows in ascending arrow
mask order and columns in ascending cell order, so that indexing it as
table[arrowByte][cellIndex] yields the interaction mask of that pair. -/
theorem c8_table_layout :
    INTERACTIONS.length = 256 ∧
    (∀ row ∈ INTERACTIONS, row.length = 16) ∧
    ∀ a < 256, ∀ c < 16, (INTERACTIONS.getD a []).getD c 0 = computeInteraction a c := by
  refine ⟨by simp [INTERACTIONS], ?_, ?_⟩
  · intro row hrow
    simp only [INTERACTIONS, List.mem_map] at hrow
    obtain ⟨a, -, rfl⟩ := hrow
    simp
  · intro a ha c hc
    rw [INTERACTIONS_getD a ha, row_getD a c hc]

theorem c8_table_layout_witness :
    (INTERACTIONS.getD 5 []).getD 3 0 = computeInteraction 5 3 :=
  c8_table_layout.2.2 5 (by decide) 3 (by decide)

/-- C9: for every cell below 16, the interaction mask of the zero arrow mask
is 0: a piece with no arrows interacts with nothing. -/
theorem c9_zero_arrows : ∀ cell < 16, computeInteraction 0 cell = 0 := by decide

theorem c9_zero_arrows_witness : computeInteraction 0 7 = 0 :=
  c9_zero_arrows 7 (by decide)

/-- C10: the interaction computation is a homomorphism for bitwise OR of arrow
masks: interacting with the union of two arrow sets is the union of the two
interactions; monotonicity in the arrow set follows. -/
theorem c10_or_homomorphism : ∀ cell < 16, ∀ a < 256, ∀ b < 256,
    computeInteraction (a ||| b) cell =
      computeInteraction a cell ||| computeInteraction b cell := by
  intro cell hcell a ha b hb
  have hab : a ||| b < 256 := @Nat.or_lt_two_pow a b 8 ha hb
  rw [xor_or_equiv (a ||| b) hab cell hcell, xor_or_equiv a ha cell hcell,
    xor_or_equiv b hb cell hcell]
  exact computeInteractionOr_hom a b cell

theorem c10_or_homomorphism_witness :
    computeInteraction (0x2D ||| 0x91) 9 =
      computeInteraction 0x2D 9 ||| computeInteraction 0x91 9 :=
  c10_or_homomorphism 9 (by decide) 0x2D (by decide) 0x91 (by decide)

end GenInteractions
